import Mathlib

/-!
Verification of the region-scoped coastal-inundation pipeline of
src/streamlit_app.py.

The geometry objects handled by the app (shapely polygons, lines and
multi-geometries) are modelled by their standard denotation: sets of
points of the plane.  The external computational-geometry collaborators
that the app merely calls — the pair of pyproj coordinate transforms
(lines 106-116), shapely's `.area` and `.is_empty` — enter as explicit
function parameters, and the few properties of theirs that a statement
needs (monotonicity of area under inclusion, emptiness soundness,
mutual inversion of the two transforms) appear as named hypotheses of
that statement.  Python dicts keyed by year are modelled as ordered
association lists with Python's update-or-append assignment semantics,
and the Natural Earth GeoDataFrame as a list of records together with
two flags recording which attribute columns survived load_world's
normalization (lines 59-71).
-/

namespace SeaLevelApp

/-- A geometry in either coordinate space: a set of points of the plane. -/
abbrev Geom : Type := Set (ℝ × ℝ)

/-- A coordinate transform between geographic and metric space, as produced by
pyproj.Transformer (lines 108-109 define project_to_metric and project_to_wgs). -/
abbrev Transform : Type := (ℝ × ℝ) → (ℝ × ℝ)

/-- shapely.ops.transform f g (imported as shp_transform, used at lines
113, 116, 122-123, 130, 172, 181, 255): apply the transform to every point. -/
def shp_transform (f : Transform) (g : Geom) : Geom := f '' g

/-- g.buffer d (line 128): Minkowski dilation of the geometry by the closed
disc of radius d — every point at distance at most d from some point of g.
A zero radius returns the geometry itself; a negative radius gives ∅. -/
def buffer (g : Geom) (d : ℝ) : Geom := {x | ∃ p ∈ g, dist x p ≤ d}

/-- shapely.ops.unary_union of a list of geometries (lines 80, 88-89, 93-94
use the GeoDataFrame method of the same name). -/
def unary_union (gs : List Geom) : Geom := gs.foldl (fun a b => a ∪ b) ∅

/-! ### Python dicts keyed by year -/

/-- One assignment m[k] = v on a Python dict modelled as an ordered
association list (line 130 `results[y] = ...`): an existing key is updated in
place, a new key is appended at the end, matching insertion-order semantics. -/
def dict_set {α : Type} (m : List (ℤ × α)) (k : ℤ) (v : α) : List (ℤ × α) :=
  if k ∈ m.map Prod.fst then m.map (fun p => if p.1 = k then (k, v) else p)
  else m ++ [(k, v)]

/-- m.get(k, d) on a Python dict (line 126 `slr_map.get(y, 0.0)`). -/
def dict_get {α : Type} (m : List (ℤ × α)) (k : ℤ) (d : α) : α :=
  (m.lookup k).getD d

/-- The ordered key sequence of a dict. -/
def dkeys {α : Type} (m : List (ℤ × α)) : List ℤ := m.map Prod.fst

/-! ### The boundary dataset -/

/-- One row of the Natural Earth countries GeoDataFrame: the name and
continent attributes may be missing for a row (NaN), the geometry column
always holds a shape. -/
structure BoundaryRecord : Type where
  name : Option String
  continent : Option String
  shape : Geom

/-- The loaded GeoDataFrame `world`: its rows plus which of the two attribute
columns exist at all after load_world's column normalization (lines 59-71)
— the code tests column presence (lines 82, 90) before touching a column. -/
structure WorldGdf : Type where
  hasName : Bool
  hasContinent : Bool
  records : List BoundaryRecord

/-- Python str.lower() restricted to the ASCII range, on the character list
of a string. -/
def lower_chars (s : String) : List Char := s.data.map Char.toLower

/-- Substring occurrence test on character lists (pandas .str.contains with a
plain, regex-free pattern). -/
def chars_contain (pat : List Char) : List Char → Bool
  | [] => pat.isEmpty
  | c :: cs => pat.isPrefixOf (c :: cs) || chars_contain pat cs

/-- world_gdf['name'].str.lower().str.contains(pat, na=False) for one row
(lines 83 and 86): a missing name compares False. -/
def name_contains (r : BoundaryRecord) (pat : String) : Bool :=
  match r.name with
  | some n => chars_contain pat.data (lower_chars n)
  | none => false

/-- world_gdf['continent'].str.lower() == region_key.lower() for one row
(line 91): a missing continent compares False. -/
def continent_matches (r : BoundaryRecord) (region_key : String) : Bool :=
  match r.continent with
  | some c => lower_chars c == lower_chars region_key
  | none => false

/-- df.unary_union for a set of rows: union of their geometry column. -/
def records_union (rs : List BoundaryRecord) : Geom :=
  unary_union (rs.map BoundaryRecord.shape)

/-- The early-returning 'South Korea' block of get_region_geom (lines 81-89),
as an optional result: `some` models a `return`, `none` models falling
through to the continent lookup below it. -/
def korea_branch (w : WorldGdf) : Option Geom :=
  if w.hasName then
    let korea_df := w.records.filter (fun r => name_contains r "korea")
    if korea_df.isEmpty then none
    else
      let south := korea_df.filter (fun r => name_contains r "south")
      if south.isEmpty then some (records_union korea_df)
      else some (records_union south)
  else none

/-- The continent lookup of get_region_geom (lines 90-93), as an optional
result: `some` models a `return`, `none` models falling through to the final
world union. -/
def continent_branch (w : WorldGdf) (region_key : String) : Option Geom :=
  if w.hasContinent then
    let m := w.records.filter (fun r => continent_matches r region_key)
    if m.isEmpty then none else some (records_union m)
  else none

/-- get_region_geom (lines 78-94): 'World' returns the whole union; the
'South Korea' block may return early; then the continent lookup may return;
otherwise the whole union is the final fallback (line 94). -/
def get_region_geom (w : WorldGdf) (region_key : String) : Geom :=
  if region_key = "World" then records_union w.records
  else
    match (if region_key = "South Korea" then korea_branch w else none) with
    | some g => g
    | none =>
      match continent_branch w region_key with
      | some g => g
      | none => records_union w.records

/-! ### The inundation simulation -/

/-- simulate_inundation_for_years (lines 120-131): project the coastline and
the region mask to metric space once, then for each requested year read the
rise (defaulting to 0.0), buffer the metric coastline by rise times the
inland-penetration coefficient, intersect with the metric region, reproject
to geographic space and store under the year key. -/
def simulate_inundation_for_years (pm pw : Transform) (years_list : List ℤ)
    (slr_map : List (ℤ × ℝ)) (coastlines_geom region_mask : Geom)
    (meter_per_m : ℝ) : List (ℤ × Geom) :=
  let coast_metric := shp_transform pm coastlines_geom
  let region_metric := shp_transform pm region_mask
  years_list.foldl (fun results y =>
    let slr_m := dict_get slr_map y 0.0
    let buffer_dist := slr_m * meter_per_m
    let inundation_metric := buffer coast_metric buffer_dist
    let inundation_region := inundation_metric ∩ region_metric
    dict_set results y (shp_transform pw inundation_region)) []

/-- Modelled from the spec: the six per-year steps of the Inundation
Simulator contract (spec section 4.4): (1) riseM = riseSchedule.get(y, 0.0);
(2) bufferDistance = riseM * metersPerMeterRise; (3) project coastline and
regionShape to metric space; (4) buffer the metric coastline by
bufferDistance; (5) intersect with the metric region; (6) project the
intersection back to geographic space. -/
def spec_year_result (pm pw : Transform) (riseSchedule : List (ℤ × ℝ))
    (coastline regionShape : Geom) (metersPerMeterRise : ℝ) (y : ℤ) : Geom :=
  let riseM := dict_get riseSchedule y 0.0
  let bufferDistance := riseM * metersPerMeterRise
  let coastlineMetric := shp_transform pm coastline
  let regionMetric := shp_transform pm regionShape
  let inundatedMetric := buffer coastlineMetric bufferDistance
  let inundatedRegion := inundatedMetric ∩ regionMetric
  shp_transform pw inundatedRegion

/-! ### Aggregation

shapely's `.area` and `.is_empty` are external library calls; they enter the
model as the function parameters `ar` (area of a metric geometry) and `ie`
(emptiness test), with the library facts a statement relies on taken as
hypotheses of that statement. -/

/-- The per-geometry body of the summary loop (lines 170-173) and of the
heatmap loop (lines 253-255): area 0.0 for an empty geometry, otherwise the
metric-space area divided by 1e6 (square kilometres). -/
noncomputable def summary_area (ie : Geom → Bool) (ar : Geom → ℝ) (pm : Transform)
    (poly : Geom) : ℝ :=
  if ie poly then 0.0 else ar (shp_transform pm poly) / 1000000

/-- summary_rows (lines 168-174): one (year, inundation_km2) row per entry
of the simulation dict, in dict order. -/
noncomputable def summary_rows (ie : Geom → Bool) (ar : Geom → ℝ) (pm : Transform)
    (inundations : List (ℤ × Geom)) : List (ℤ × ℝ) :=
  inundations.map (fun yp => (yp.1, summary_area ie ar pm yp.2))

/-- Insertion step of the sort modelling DataFrame.sort_values. -/
def sort_insert {α : Type} (le : α → α → Bool) (x : α) : List α → List α
  | [] => [x]
  | y :: ys => if le x y then x :: y :: ys else y :: sort_insert le x ys

/-- Sort modelling DataFrame.sort_values: sort_values only promises the
ascending key order, which insertion sort delivers. -/
def sort_by {α : Type} (le : α → α → Bool) : List α → List α
  | [] => []
  | x :: xs => sort_insert le x (sort_by le xs)

/-- summary_df (line 176): the summary rows sorted ascending by year. -/
noncomputable def summary_df (ie : Geom → Bool) (ar : Geom → ℝ) (pm : Transform)
    (inundations : List (ℤ × Geom)) : List (ℤ × ℝ) :=
  sort_by (fun a b => decide (a.1 ≤ b.1)) (summary_rows ie ar pm inundations)

/-- region_area_km2 (lines 179-184): metric area of the selected region in
square kilometres.  The try/except around it only guards the library calls,
which the model represents directly, so the None branch is unreachable. -/
noncomputable def region_area_km2 (ar : Geom → ℝ) (pm : Transform) (region : Geom) : ℝ :=
  ar (shp_transform pm region) / 1000000

/-- Lines 186-189: append the pct_of_region column to the sorted summary
table.  Python's `if region_area_km2 and region_area_km2 > 0` — float
truthiness conjoined with positivity — is equivalent to strict positivity,
and the else branch stores None for every row. -/
noncomputable def summary_table (ie : Geom → Bool) (ar : Geom → ℝ) (pm : Transform)
    (inundations : List (ℤ × Geom)) (region : Geom) :
    List (ℤ × ℝ × Option ℝ) :=
  (summary_df ie ar pm inundations).map (fun r =>
    (r.1, r.2,
      if 0 < region_area_km2 ar pm region then
        some (r.2 / region_area_km2 ar pm region * 100)
      else none))

/-- regions_to_compare (line 247): the fixed enumeration the heatmap loop
walks, independent of the primary region selector. -/
def regions_to_compare : List String :=
  ["Asia", "North America", "South America", "Africa", "South Korea"]

/-- The heatmap loop (lines 248-256): for every region of the fixed
enumeration, resolve it, rerun the simulation, and emit one
(region, year, inundation_km2) row per simulated year. -/
noncomputable def heat_rows (ie : Geom → Bool) (ar : Geom → ℝ) (pm pw : Transform)
    (w : WorldGdf) (years : List ℤ) (slr_map : List (ℤ × ℝ)) (coast : Geom)
    (meter_per_m : ℝ) : List (String × ℤ × ℝ) :=
  regions_to_compare.flatMap (fun reg =>
    (simulate_inundation_for_years pm pw years slr_map coast
        (get_region_geom w reg) meter_per_m).map
      (fun yp => (reg, yp.1, summary_area ie ar pm yp.2)))

/-! ### The presentation adapter -/

/-- The shapely geometry objects geom_to_pydeck_polygons dispatches on:
polygons (carrying their exterior ring), multi-polygons (carrying the
exterior ring of each component), line strings (no exterior ring, no
component list) and geometry collections. -/
inductive SGeom : Type where
  | polygon (exterior : List (ℝ × ℝ))
  | multiPolygon (polys : List (List (ℝ × ℝ)))
  | lineString (coords : List (ℝ × ℝ))
  | geometryCollection (geoms : List SGeom)

/-- shapely's .is_empty attribute on these objects: no coordinates or no
components. -/
def sg_is_empty : SGeom → Bool
  | SGeom.polygon e => e.isEmpty
  | SGeom.multiPolygon ps => ps.isEmpty
  | SGeom.lineString c => c.isEmpty
  | SGeom.geometryCollection gs => gs.isEmpty

/-- The rendering record produced per component polygon at lines 161-162:
the exterior ring as a [[lon, lat], ...] path. -/
def exterior_path (e : List (ℝ × ℝ)) : List (List ℝ) :=
  e.map (fun c => [c.1, c.2])

/-- The per-component body of the rendering loop (lines 159-164): reading
p.exterior under try yields the exterior path for a polygon and skips —
`continue` — any component that has no exterior ring. -/
def component_path : SGeom → Option (List (List ℝ))
  | SGeom.polygon e => some (exterior_path e)
  | _ => none

/-- geom_to_pydeck_polygons (lines 140-165).  None or an empty geometry
returns the empty list (lines 142-143).  A polygon contributes itself, a
multi-polygon its components (lines 147-151); any other object has its
.geoms attribute read under try, so a geometry collection contributes its
components and a line string — which has no .geoms — contributes nothing
(lines 152-157).  Each candidate component then goes through
component_path, and the skipped ones are dropped (lines 159-164). -/
def geom_to_pydeck_polygons (g : Option SGeom) : List (List (List ℝ)) :=
  match g with
  | none => []
  | some gobj =>
    if sg_is_empty gobj then []
    else
      (match gobj with
        | SGeom.polygon e => [SGeom.polygon e]
        | SGeom.multiPolygon ps => ps.map SGeom.polygon
        | SGeom.lineString _ => []
        | SGeom.geometryCollection gs => gs).filterMap component_path

/-! ### Lemmas about the dict model -/

lemma lookup_pair_cons {α : Type} (a : ℤ) (b : α) (m : List (ℤ × α)) (k : ℤ) :
    ((a, b) :: m).lookup k = if k = a then some b else m.lookup k := by
  by_cases h : k = a
  · subst h; simp [List.lookup_cons]
  · have hb : (k == a) = false := beq_eq_false_iff_ne.mpr h
    simp [List.lookup_cons, hb, h]

lemma dkeys_map_set {α : Type} (m : List (ℤ × α)) (k : ℤ) (v : α) :
    dkeys (m.map (fun p => if p.1 = k then (k, v) else p)) = dkeys m := by
  have hf : (fun p : ℤ × α => (if p.1 = k then (k, v) else p).1) = fun p => p.1 := by
    funext p
    by_cases h : p.1 = k <;> simp [h]
  simp only [dkeys, List.map_map, Function.comp_def, hf]

lemma lookup_map_set {α : Type} (m : List (ℤ × α)) (k : ℤ) (v : α) (k' : ℤ) :
    (m.map (fun p => if p.1 = k then (k, v) else p)).lookup k'
      = if k' = k then (if k ∈ dkeys m then some v else none) else m.lookup k' := by
  induction m with
  | nil => by_cases h : k' = k <;> simp [h, dkeys]
  | cons p m ih =>
    obtain ⟨a, b⟩ := p
    by_cases hak : a = k
    · subst hak
      by_cases hk : k' = a
      · subst hk
        simp [lookup_pair_cons, dkeys]
      · simp [lookup_pair_cons, hk, ih, dkeys]
    · by_cases hk : k' = a
      · subst hk
        have hkk : ¬k' = k := fun h => hak (h.symm ▸ rfl)
        simp [lookup_pair_cons, hak, hkk]
      · by_cases hkk : k' = k
        · subst hkk
          by_cases hm : k' ∈ m.map Prod.fst
          · simp [lookup_pair_cons, hak, hk, ih, dkeys, hm, List.mem_cons]
          · simp [lookup_pair_cons, hak, hk, ih, dkeys, hm, List.mem_cons]
        · simp [lookup_pair_cons, hak, hk, hkk, ih]

lemma lookup_append_pair {α : Type} (m : List (ℤ × α)) (k : ℤ) (v : α) (k' : ℤ)
    (hk : k ∉ dkeys m) :
    (m ++ [(k, v)]).lookup k' = if k' = k then some v else m.lookup k' := by
  induction m with
  | nil => simp [lookup_pair_cons]
  | cons p m ih =>
    obtain ⟨a, b⟩ := p
    have hka : ¬k = a := by
      intro h; exact hk (by simp [dkeys, h])
    have hk' : k ∉ dkeys m := by
      intro h; exact hk (by simp [dkeys] at h ⊢; exact Or.inr h)
    by_cases hke : k' = a
    · subst hke
      have : ¬k' = k := fun h => hka h.symm
      simp [lookup_pair_cons, this]
    · simp [List.cons_append, lookup_pair_cons, hke, ih hk']

lemma dict_set_lookup {α : Type} (m : List (ℤ × α)) (k : ℤ) (v : α) (k' : ℤ) :
    (dict_set m k v).lookup k' = if k' = k then some v else m.lookup k' := by
  unfold dict_set
  by_cases hm : k ∈ m.map Prod.fst
  · have hm' : k ∈ dkeys m := hm
    simp [hm, lookup_map_set, hm']
  · have hm' : k ∉ dkeys m := hm
    simp [hm, lookup_append_pair m k v k' hm']

lemma dkeys_dict_set_of_mem {α : Type} (m : List (ℤ × α)) (k : ℤ) (v : α)
    (h : k ∈ dkeys m) : dkeys (dict_set m k v) = dkeys m := by
  unfold dict_set
  simp only [show (k ∈ m.map Prod.fst) = (k ∈ dkeys m) from rfl, if_pos h]
  exact dkeys_map_set m k v

lemma dkeys_dict_set_of_notmem {α : Type} (m : List (ℤ × α)) (k : ℤ) (v : α)
    (h : k ∉ dkeys m) : dkeys (dict_set m k v) = dkeys m ++ [k] := by
  unfold dict_set
  simp only [show (k ∈ m.map Prod.fst) = (k ∈ dkeys m) from rfl, if_neg h]
  simp [dkeys]

lemma mem_dkeys_dict_set {α : Type} (m : List (ℤ × α)) (k : ℤ) (v : α) (k' : ℤ) :
    k' ∈ dkeys (dict_set m k v) ↔ k' = k ∨ k' ∈ dkeys m := by
  by_cases h : k ∈ dkeys m
  · rw [dkeys_dict_set_of_mem m k v h]
    constructor
    · exact Or.inr
    · rintro (rfl | hk)
      · exact h
      · exact hk
  · rw [dkeys_dict_set_of_notmem m k v h]
    simp [or_comm]

lemma dkeys_dict_set_nodup {α : Type} (m : List (ℤ × α)) (k : ℤ) (v : α)
    (h : (dkeys m).Nodup) : (dkeys (dict_set m k v)).Nodup := by
  by_cases hm : k ∈ dkeys m
  · rw [dkeys_dict_set_of_mem m k v hm]; exact h
  · rw [dkeys_dict_set_of_notmem m k v hm]
    simp [List.nodup_append, h, List.disjoint_singleton, hm]

/-! ### Lemmas about the simulation fold -/

lemma foldl_dict_lookup {α : Type} (f : ℤ → α) (ys : List ℤ)
    (acc : List (ℤ × α)) (k : ℤ) :
    (ys.foldl (fun m y => dict_set m y (f y)) acc).lookup k
      = if k ∈ ys then some (f k) else acc.lookup k := by
  induction ys generalizing acc with
  | nil => simp
  | cons y ys ih =>
    rw [List.foldl_cons, ih]
    by_cases hk : k ∈ ys
    · simp [hk, List.mem_cons]
    · by_cases hky : k = y
      · simp [hk, hky, dict_set_lookup]
      · simp [hk, hky, dict_set_lookup, List.mem_cons]

lemma mem_dkeys_foldl_dict {α : Type} (f : ℤ → α) (ys : List ℤ)
    (acc : List (ℤ × α)) (k : ℤ) :
    k ∈ dkeys (ys.foldl (fun m y => dict_set m y (f y)) acc)
      ↔ k ∈ ys ∨ k ∈ dkeys acc := by
  induction ys generalizing acc with
  | nil => simp
  | cons y ys ih =>
    rw [List.foldl_cons, ih, mem_dkeys_dict_set]
    simp [List.mem_cons]
    tauto

lemma dkeys_foldl_dict_nodup {α : Type} (f : ℤ → α) (ys : List ℤ)
    (acc : List (ℤ × α)) (h : (dkeys acc).Nodup) :
    (dkeys (ys.foldl (fun m y => dict_set m y (f y)) acc)).Nodup := by
  induction ys generalizing acc with
  | nil => exact h
  | cons y ys ih => exact ih _ (dkeys_dict_set_nodup _ _ _ h)

lemma dkeys_foldl_dict_of_nodup {α : Type} (f : ℤ → α) (ys : List ℤ)
    (hys : ys.Nodup) :
    ∀ acc : List (ℤ × α), (dkeys acc).Nodup → (∀ y ∈ ys, y ∉ dkeys acc) →
      dkeys (ys.foldl (fun m y => dict_set m y (f y)) acc) = dkeys acc ++ ys := by
  induction ys with
  | nil => intro acc _ _; simp
  | cons y ys ih =>
    intro acc hacc hdisj
    rcases List.nodup_cons.mp hys with ⟨hy, hys'⟩
    have h1 : y ∉ dkeys acc := hdisj y (List.mem_cons_self y ys)
    rw [List.foldl_cons]
    have h2 : dkeys (dict_set acc y (f y)) = dkeys acc ++ [y] :=
      dkeys_dict_set_of_notmem acc y (f y) h1
    have h3 : (dkeys (dict_set acc y (f y))).Nodup := by
      rw [h2]; simp [List.nodup_append, hacc, List.disjoint_singleton, h1]
    have h4 : ∀ z ∈ ys, z ∉ dkeys (dict_set acc y (f y)) := by
      intro z hz
      rw [h2]
      simp only [List.mem_append, List.mem_singleton]
      rintro (hza | rfl)
      · exact hdisj z (List.mem_cons_of_mem y hz) hza
      · exact hy hz
    rw [ih hys' _ h3 h4, h2, List.append_assoc, List.singleton_append]

/-- The simulation loop is the fold of dict assignments of the per-year
six-step result: both sides unfold to the same term. -/
lemma simulate_eq_foldl (pm pw : Transform) (ys : List ℤ)
    (slr_map : List (ℤ × ℝ)) (coast region : Geom) (c : ℝ) :
    simulate_inundation_for_years pm pw ys slr_map coast region c
      = ys.foldl
          (fun m y => dict_set m y (spec_year_result pm pw slr_map coast region c y))
          [] := rfl

lemma simulate_lookup (pm pw : Transform) (ys : List ℤ)
    (slr_map : List (ℤ × ℝ)) (coast region : Geom) (c : ℝ) (y : ℤ) :
    (simulate_inundation_for_years pm pw ys slr_map coast region c).lookup y
      = if y ∈ ys then some (spec_year_result pm pw slr_map coast region c y)
        else none := by
  rw [simulate_eq_foldl, foldl_dict_lookup]
  simp

/-! ### Lemmas about buffering -/

lemma buffer_zero (g : Geom) : buffer g 0 = g := by
  ext x
  constructor
  · rintro ⟨p, hp, hd⟩
    rw [dist_le_zero] at hd
    exact hd ▸ hp
  · intro hx
    exact ⟨x, hx, by rw [dist_self]⟩

lemma buffer_mono (g : Geom) {d1 d2 : ℝ} (h : d1 ≤ d2) :
    buffer g d1 ⊆ buffer g d2 := by
  rintro x ⟨p, hp, hd⟩
  exact ⟨p, hp, hd.trans h⟩

/-! ### Lemmas about the sort model -/

lemma mem_sort_insert {α : Type} (le : α → α → Bool) (x : α) (l : List α)
    (z : α) : z ∈ sort_insert le x l ↔ z = x ∨ z ∈ l := by
  induction l with
  | nil => simp [sort_insert]
  | cons y ys ih =>
    by_cases h : le x y
    · simp [sort_insert, h]
    · simp only [sort_insert, if_neg h, List.mem_cons, ih]
      tauto

lemma sort_insert_pairwise {α : Type} (le : α → α → Bool)
    (htr : ∀ a b c, le a b = true → le b c = true → le a c = true)
    (hto : ∀ a b, le a b = false → le b a = true) (x : α) (l : List α)
    (h : l.Pairwise (fun a b => le a b = true)) :
    (sort_insert le x l).Pairwise (fun a b => le a b = true) := by
  induction l with
  | nil => simp [sort_insert]
  | cons y ys ih =>
    rcases List.pairwise_cons.mp h with ⟨hy, hys⟩
    by_cases hxy : le x y
    · rw [sort_insert, if_pos hxy]
      refine List.pairwise_cons.mpr ⟨?_, h⟩
      intro z hz
      rcases List.mem_cons.mp hz with rfl | hz'
      · exact hxy
      · exact htr x y z hxy (hy z hz')
    · rw [sort_insert, if_neg hxy]
      refine List.pairwise_cons.mpr ⟨?_, ih hys⟩
      intro z hz
      rcases (mem_sort_insert le x ys z).mp hz with hzx | hz'
      · rw [hzx]
        exact hto x y (Bool.not_eq_true _ ▸ hxy)
      · exact hy z hz'

lemma summary_area_mono (ie : Geom → Bool) (ar : Geom → ℝ) (pm : Transform)
    (hmono : ∀ S T : Geom, S ⊆ T → ar S ≤ ar T) (hze : ar ∅ = 0)
    (hie : ∀ S : Geom, ie S = true → S = ∅)
    {S T : Geom} (hst : S ⊆ T) :
    summary_area ie ar pm S ≤ summary_area ie ar pm T := by
  have har : ∀ G : Geom, (0:ℝ) ≤ ar G := by
    intro G
    rw [← hze]
    exact hmono _ _ (Set.empty_subset _)
  unfold summary_area
  by_cases hS : ie S <;> by_cases hT : ie T <;> simp only [hS, hT, if_true, if_false]
  · norm_num
  · have h0 : (0:ℝ) ≤ ar (shp_transform pm T) / 1000000 :=
      div_nonneg (har _) (by norm_num)
    norm_num
    exact h0
  · have hS' : S = ∅ := Set.subset_empty_iff.mp ((hie T hT) ▸ hst)
    rw [hS', shp_transform, Set.image_empty, hze]
    norm_num
  · have h1 : ar (shp_transform pm S) ≤ ar (shp_transform pm T) :=
      hmono _ _ (Set.image_mono hst)
    exact (div_le_div_iff_of_pos_right (by norm_num)).mpr h1

lemma sort_by_pairwise {α : Type} (le : α → α → Bool)
    (htr : ∀ a b c, le a b = true → le b c = true → le a c = true)
    (hto : ∀ a b, le a b = false → le b a = true) (l : List α) :
    (sort_by le l).Pairwise (fun a b => le a b = true) := by
  induction l with
  | nil => simp [sort_by]
  | cons x xs ih => exact sort_insert_pairwise le htr hto x _ ih

/-! ### Lemmas about the region resolver and the comparison loop -/

lemma korea_branch_none (w : WorldGdf)
    (h : w.hasName = true → ∀ r ∈ w.records, name_contains r "korea" = false) :
    korea_branch w = none := by
  unfold korea_branch
  cases hn : w.hasName
  · simp
  · have hfil : w.records.filter (fun r => name_contains r "korea") = [] :=
      List.filter_eq_nil_iff.mpr (fun a ha => by simp [h hn a ha])
    simp [hfil]

lemma continent_branch_none (w : WorldGdf) (key : String)
    (h : w.hasContinent = true → ∀ r ∈ w.records, continent_matches r key = false) :
    continent_branch w key = none := by
  unfold continent_branch
  cases hn : w.hasContinent
  · simp
  · have hfil : w.records.filter (fun r => continent_matches r key) = [] :=
      List.filter_eq_nil_iff.mpr (fun a ha => by simp [h hn a ha])
    simp [hfil]

lemma simulate_dkeys (pm pw : Transform) (years : List ℤ)
    (slr_map : List (ℤ × ℝ)) (coast region : Geom) (c : ℝ)
    (hnd : years.Nodup) :
    dkeys (simulate_inundation_for_years pm pw years slr_map coast region c)
      = years := by
  rw [simulate_eq_foldl]
  have h := dkeys_foldl_dict_of_nodup
    (fun y => spec_year_result pm pw slr_map coast region c y) years hnd []
    (by simp [dkeys]) (by simp [dkeys])
  rw [h]
  simp [dkeys]

lemma filterMap_polygon_map (ps : List (List (ℝ × ℝ))) :
    (ps.map SGeom.polygon).filterMap component_path = ps.map exterior_path := by
  induction ps with
  | nil => rfl
  | cons e ps ih => simp [List.filterMap_cons, component_path, ih]

/-! ### Claim theorems -/

/-- C10: for every input list of years — the empty list included — the
simulation returns a mapping whose key set is exactly the set of requested
years: a year is a key iff it was requested, no key repeats, and an empty
selection yields the empty mapping. -/
theorem simulate_keys_exact (pm pw : Transform) (slr_map : List (ℤ × ℝ))
    (coast region : Geom) (c : ℝ) (ys : List ℤ) :
    (∀ y : ℤ,
        y ∈ dkeys (simulate_inundation_for_years pm pw ys slr_map coast region c)
          ↔ y ∈ ys)
    ∧ (dkeys (simulate_inundation_for_years pm pw ys slr_map coast region c)).Nodup
    ∧ simulate_inundation_for_years pm pw [] slr_map coast region c = [] := by
  refine ⟨?_, ?_, rfl⟩
  · intro y
    rw [simulate_eq_foldl, mem_dkeys_foldl_dict]
    simp [dkeys]
  · rw [simulate_eq_foldl]
    exact dkeys_foldl_dict_nodup _ _ _ (by simp [dkeys])

/-- C1: for every requested year, the simulation's entry for that year is the
geographic reprojection of the intersection of the metric-projected coastline
buffered by riseSchedule.get(y, 0.0) * metersPerMeterRise with the
metric-projected region shape — exactly the six per-year steps of the spec,
as packaged in spec_year_result. -/
theorem simulate_follows_spec_steps (pm pw : Transform) (ys : List ℤ)
    (slr_map : List (ℤ × ℝ)) (coast region : Geom) (c : ℝ) (y : ℤ)
    (hy : y ∈ ys) :
    (simulate_inundation_for_years pm pw ys slr_map coast region c).lookup y
      = some (spec_year_result pm pw slr_map coast region c y) := by
  rw [simulate_lookup, if_pos hy]

theorem simulate_follows_spec_steps_witness :
    (simulate_inundation_for_years id id [2030] [(2030, (1:ℝ))] ∅ ∅ 400).lookup 2030
      = some (spec_year_result id id [(2030, (1:ℝ))] ∅ ∅ 400 2030) :=
  simulate_follows_spec_steps id id [2030] [(2030, (1:ℝ))] ∅ ∅ 400 2030 (by simp)

/-- C6: any geometry the simulation stores for a year is contained in the
region mask it was given, provided the metric-to-geographic transform inverts
the geographic-to-metric one (the projection round-trip of spec section 4.3),
because the per-year geometry is an intersection with the projected region
taken before reprojection. -/
theorem inundation_subset_region (pm pw : Transform) (ys : List ℤ)
    (slr_map : List (ℤ × ℝ)) (coast region : Geom) (c : ℝ) (y : ℤ) (g : Geom)
    (hinv : ∀ x, pw (pm x) = x)
    (hlk : (simulate_inundation_for_years pm pw ys slr_map coast region c).lookup y
      = some g) :
    g ⊆ region := by
  rw [simulate_lookup] at hlk
  by_cases hy : y ∈ ys
  · rw [if_pos hy] at hlk
    have hg : g = spec_year_result pm pw slr_map coast region c y :=
      (Option.some_inj.mp hlk).symm
    subst hg
    simp only [spec_year_result, shp_transform]
    rintro x ⟨p, hp, rfl⟩
    obtain ⟨q, hq, rfl⟩ := hp.2
    rw [hinv q]
    exact hq
  · rw [if_neg hy] at hlk
    exact absurd hlk (by simp)

theorem inundation_subset_region_witness :
    spec_year_result id id [] (∅ : Geom) {((0:ℝ), (0:ℝ))} 1 0 ⊆ {((0:ℝ), (0:ℝ))} :=
  inundation_subset_region id id [0] [] ∅ {((0:ℝ), (0:ℝ))} 1 0 _ (fun _ => rfl) rfl

/-- C4: a year absent from the rise schedule is simulated with rise 0.0, so
the buffer distance is 0, the buffer is the coastline itself, the stored
geometry is the reprojected intersection of the bare metric coastline with
the metric region, and — the coastline being a line of zero area — the
reported inundation area for that year is 0. -/
theorem missing_year_zero_rise (pm pw : Transform) (ie : Geom → Bool)
    (ar : Geom → ℝ) (ys : List ℤ) (slr_map : List (ℤ × ℝ))
    (coast region : Geom) (c : ℝ) (y : ℤ)
    (hy : y ∈ ys) (habs : slr_map.lookup y = none)
    (hinv : ∀ x, pm (pw x) = x)
    (hmono : ∀ S T : Geom, S ⊆ T → ar S ≤ ar T)
    (hnn : ∀ S : Geom, 0 ≤ ar S)
    (hcz : ar (shp_transform pm coast) = 0) :
    dict_get slr_map y 0.0 = 0
    ∧ buffer (shp_transform pm coast) (dict_get slr_map y 0.0 * c)
        = shp_transform pm coast
    ∧ (simulate_inundation_for_years pm pw ys slr_map coast region c).lookup y
        = some (shp_transform pw (shp_transform pm coast ∩ shp_transform pm region))
    ∧ summary_area ie ar pm
        (shp_transform pw (shp_transform pm coast ∩ shp_transform pm region)) = 0 := by
  have hget : dict_get slr_map y 0.0 = 0 := by
    simp [dict_get, habs]
    norm_num
  refine ⟨hget, ?_, ?_, ?_⟩
  · rw [hget, zero_mul, buffer_zero]
  · rw [simulate_lookup, if_pos hy]
    simp only [spec_year_result, hget, zero_mul, buffer_zero]
  · have hrt : shp_transform pm
        (shp_transform pw (shp_transform pm coast ∩ shp_transform pm region))
        = shp_transform pm coast ∩ shp_transform pm region := by
      simp only [shp_transform, Set.image_image]
      have : (fun x => pm (pw x)) = id := funext hinv
      rw [this, Set.image_id]
    have haz : ar (shp_transform pm coast ∩ shp_transform pm region) = 0 :=
      le_antisymm (hcz ▸ hmono _ _ Set.inter_subset_left) (hnn _)
    unfold summary_area
    by_cases hie : ie (shp_transform pw (shp_transform pm coast ∩ shp_transform pm region))
    · simp only [hie, if_true]
      norm_num
    · rw [if_neg hie, hrt, haz, zero_div]

theorem missing_year_zero_rise_witness :
    summary_area (fun _ => false) (fun _ => (0:ℝ)) id
      (shp_transform id (shp_transform id (∅ : Geom) ∩ shp_transform id (∅ : Geom)))
      = 0 :=
  (missing_year_zero_rise id id (fun _ => false) (fun _ => (0:ℝ)) [2030] [] ∅ ∅ 400
    2030 (by simp) rfl (fun _ => rfl) (fun _ _ _ => le_refl 0) (fun _ => le_refl 0)
    rfl).2.2.2

/-- C5: with a positive rise fixed for the year, a fixed coastline and a
fixed region, the reported inundation area is monotone in the
inland-penetration coefficient: a larger coefficient gives a larger buffer,
hence a larger intersection, hence at least as large a reported area.  The
area hypotheses are the shapely contract: area is monotone under inclusion,
the empty geometry has area 0, and is_empty only holds for the empty set. -/
theorem area_monotone_in_coefficient (pm pw : Transform) (ie : Geom → Bool)
    (ar : Geom → ℝ) (ys : List ℤ) (slr_map : List (ℤ × ℝ))
    (coast region : Geom) (c1 c2 : ℝ) (y : ℤ) (g1 g2 : Geom)
    (hr : 0 < dict_get slr_map y 0.0) (hc : c1 < c2)
    (hlk1 : (simulate_inundation_for_years pm pw ys slr_map coast region c1).lookup y
      = some g1)
    (hlk2 : (simulate_inundation_for_years pm pw ys slr_map coast region c2).lookup y
      = some g2)
    (hmono : ∀ S T : Geom, S ⊆ T → ar S ≤ ar T)
    (hze : ar ∅ = 0)
    (hie : ∀ S : Geom, ie S = true → S = ∅) :
    summary_area ie ar pm g1 ≤ summary_area ie ar pm g2 := by
  rw [simulate_lookup] at hlk1 hlk2
  by_cases hy : y ∈ ys
  · rw [if_pos hy] at hlk1 hlk2
    have hg1 : g1 = spec_year_result pm pw slr_map coast region c1 y :=
      (Option.some_inj.mp hlk1).symm
    have hg2 : g2 = spec_year_result pm pw slr_map coast region c2 y :=
      (Option.some_inj.mp hlk2).symm
    subst hg1
    subst hg2
    apply summary_area_mono ie ar pm hmono hze hie
    simp only [spec_year_result, shp_transform]
    apply Set.image_mono
    apply Set.inter_subset_inter _ le_rfl
    exact buffer_mono _
      (mul_le_mul_of_nonneg_left hc.le hr.le)
  · rw [if_neg hy] at hlk1
    exact absurd hlk1 (by simp)

theorem area_monotone_in_coefficient_witness :
    summary_area (fun _ => false) (fun _ => (0:ℝ)) id
        (spec_year_result id id [(2030, (1:ℝ))] ∅ ∅ 50 2030)
      ≤ summary_area (fun _ => false) (fun _ => (0:ℝ)) id
        (spec_year_result id id [(2030, (1:ℝ))] ∅ ∅ 100 2030) :=
  area_monotone_in_coefficient id id (fun _ => false) (fun _ => (0:ℝ))
    [2030] [(2030, (1:ℝ))] ∅ ∅ 50 100 2030 _ _
    (by simp [dict_get, lookup_pair_cons]) (by norm_num) rfl rfl
    (fun _ _ _ => le_refl 0) rfl (fun S h => by simp at h)

/-- C2: when the identifier is not the special-cased country lookup — or is,
but the name lookup misses — and matches no record's continent
case-insensitively, get_region_geom returns the union of every record's
shape, which is exactly what resolving "World" returns; in particular a
nonexistent continent name resolves to the World union. -/
theorem get_region_geom_fallback_world (w : WorldGdf) (region_key : String)
    (h1 : region_key = "South Korea" → w.hasName = true →
      ∀ r ∈ w.records, name_contains r "korea" = false)
    (h2 : w.hasContinent = true →
      ∀ r ∈ w.records, continent_matches r region_key = false) :
    get_region_geom w region_key = get_region_geom w "World" := by
  have hworld : get_region_geom w "World" = records_union w.records := by
    unfold get_region_geom
    simp
  rw [hworld]
  unfold get_region_geom
  by_cases hw : region_key = "World"
  · simp [hw]
  · rw [if_neg hw]
    have hcont := continent_branch_none w region_key h2
    by_cases hsk : region_key = "South Korea"
    · rw [if_pos hsk, korea_branch_none w (h1 hsk), hcont]
    · rw [if_neg hsk, hcont]

theorem get_region_geom_fallback_world_witness :
    get_region_geom
      (WorldGdf.mk true true [BoundaryRecord.mk (some "France") (some "Europe") ∅])
      "NonexistentContinent"
    = get_region_geom
      (WorldGdf.mk true true [BoundaryRecord.mk (some "France") (some "Europe") ∅])
      "World" :=
  get_region_geom_fallback_world _ "NonexistentContinent"
    (fun h => absurd h (by decide))
    (fun _ r hr => by
      rw [List.mem_singleton.mp hr]
      decide)

/-- C3 counterexample: with a dataset in which no record's name contains
"korea" but one record's continent field equals "south korea"
case-insensitively, resolving "South Korea" returns that record's shape from
the continent lookup — not the World union the claim promises. -/
theorem south_korea_fallback_counterexample :
    get_region_geom
      (WorldGdf.mk true true
        [BoundaryRecord.mk (some "Examplia") (some "South Korea") {((0:ℝ), (0:ℝ))},
         BoundaryRecord.mk (some "Otherland") (some "Europe") {((1:ℝ), (1:ℝ))}])
      "South Korea"
    ≠ get_region_geom
      (WorldGdf.mk true true
        [BoundaryRecord.mk (some "Examplia") (some "South Korea") {((0:ℝ), (0:ℝ))},
         BoundaryRecord.mk (some "Otherland") (some "Europe") {((1:ℝ), (1:ℝ))}])
      "World" := by
  have h1 : get_region_geom
      (WorldGdf.mk true true
        [BoundaryRecord.mk (some "Examplia") (some "South Korea") {((0:ℝ), (0:ℝ))},
         BoundaryRecord.mk (some "Otherland") (some "Europe") {((1:ℝ), (1:ℝ))}])
      "South Korea" = (∅ ∪ {((0:ℝ), (0:ℝ))} : Geom) := rfl
  have h2 : get_region_geom
      (WorldGdf.mk true true
        [BoundaryRecord.mk (some "Examplia") (some "South Korea") {((0:ℝ), (0:ℝ))},
         BoundaryRecord.mk (some "Otherland") (some "Europe") {((1:ℝ), (1:ℝ))}])
      "World" = ((∅ ∪ {((0:ℝ), (0:ℝ))}) ∪ {((1:ℝ), (1:ℝ))} : Geom) := rfl
  rw [h1, h2]
  intro heq
  have hmem : ((1:ℝ), (1:ℝ)) ∈ ((∅ ∪ {((0:ℝ), (0:ℝ))}) ∪ {((1:ℝ), (1:ℝ))} : Geom) :=
    Set.mem_union_right _ rfl
  rw [← heq] at hmem
  rcases hmem with h | h
  · exact absurd h (Set.not_mem_empty _)
  · have h10 : ((1:ℝ), (1:ℝ)) = ((0:ℝ), (0:ℝ)) := Set.mem_singleton_iff.mp h
    have : (1:ℝ) = 0 := congrArg Prod.fst h10
    norm_num at this

/-- C3 (amended): resolving "South Korea" prefers the union of records whose
name contains both "korea" and "south" (case-insensitively), then the union
of all "korea" matches; but when the name column is absent or no name
contains "korea", it falls through to the continent lookup — records whose
continent equals "south korea" case-insensitively — and only if that also
misses does it return the World union. -/
theorem get_region_geom_south_korea_cases (w : WorldGdf) :
    ((w.hasName = true ∧
      (w.records.filter (fun r => name_contains r "korea")).isEmpty = false ∧
      ((w.records.filter (fun r => name_contains r "korea")).filter
          (fun r => name_contains r "south")).isEmpty = false) →
      get_region_geom w "South Korea"
        = records_union ((w.records.filter (fun r => name_contains r "korea")).filter
            (fun r => name_contains r "south")))
    ∧ ((w.hasName = true ∧
      (w.records.filter (fun r => name_contains r "korea")).isEmpty = false ∧
      ((w.records.filter (fun r => name_contains r "korea")).filter
          (fun r => name_contains r "south")).isEmpty = true) →
      get_region_geom w "South Korea"
        = records_union (w.records.filter (fun r => name_contains r "korea")))
    ∧ ((w.hasName = false
        ∨ (w.records.filter (fun r => name_contains r "korea")).isEmpty = true) →
      get_region_geom w "South Korea"
        = (continent_branch w "South Korea").getD (records_union w.records)) := by
  have hred : get_region_geom w "South Korea"
      = (match korea_branch w with
        | some g => g
        | none =>
          match continent_branch w "South Korea" with
          | some g => g
          | none => records_union w.records) := by
    unfold get_region_geom
    rw [if_neg (by decide), if_pos rfl]
  refine ⟨?_, ?_, ?_⟩
  · rintro ⟨hn, hk, hs⟩
    have hkb : korea_branch w
        = some (records_union
            ((w.records.filter (fun r => name_contains r "korea")).filter
              (fun r => name_contains r "south"))) := by
      simp only [korea_branch]
      rw [hn, hk, hs]
      simp
    rw [hred, hkb]
  · rintro ⟨hn, hk, hs⟩
    have hkb : korea_branch w
        = some (records_union (w.records.filter (fun r => name_contains r "korea"))) := by
      simp only [korea_branch]
      rw [hn, hk, hs]
      simp
    rw [hred, hkb]
  · intro h
    have hkb : korea_branch w = none := by
      simp only [korea_branch]
      rcases h with hn | hk
      · rw [hn]
        simp
      · cases hn : w.hasName
        · simp
        · rw [hk]
          simp
    rw [hred, hkb]
    cases hc : continent_branch w "South Korea" <;> simp [hc]

theorem get_region_geom_south_korea_cases_witness :
    get_region_geom
      (WorldGdf.mk true true
        [BoundaryRecord.mk (some "South Korea") (some "Asia") {((0:ℝ), (0:ℝ))},
         BoundaryRecord.mk (some "North Korea") (some "Asia") {((1:ℝ), (1:ℝ))}])
      "South Korea"
    = records_union
        [BoundaryRecord.mk (some "South Korea") (some "Asia") {((0:ℝ), (0:ℝ))}] :=
  (get_region_geom_south_korea_cases
    (WorldGdf.mk true true
      [BoundaryRecord.mk (some "South Korea") (some "Asia") {((0:ℝ), (0:ℝ))},
       BoundaryRecord.mk (some "North Korea") (some "Asia") {((1:ℝ), (1:ℝ))}])).1
    ⟨rfl, rfl, rfl⟩

/-- C7: in every summary-table row the percentage column is the row's area
divided by the region's area in square kilometres times 100 whenever the
region's metric area is strictly positive, and None otherwise — the guard of
lines 186-189, so a zero-area region yields None rather than a division
fault. -/
theorem pct_of_region_guard (ie : Geom → Bool) (ar : Geom → ℝ) (pm : Transform)
    (inundations : List (ℤ × Geom)) (region : Geom) (y : ℤ) (a : ℝ)
    (p : Option ℝ)
    (hrow : (y, a, p) ∈ summary_table ie ar pm inundations region) :
    (0 < ar (shp_transform pm region) →
      p = some (a / region_area_km2 ar pm region * 100))
    ∧ (ar (shp_transform pm region) ≤ 0 → p = none) := by
  have hc : (0:ℝ) < 1000000 := by norm_num
  unfold summary_table at hrow
  rcases List.mem_map.mp hrow with ⟨r, _, heq⟩
  simp only [Prod.mk.injEq] at heq
  rcases heq with ⟨hy, ha, hp⟩
  constructor
  · intro h
    have hpos : 0 < region_area_km2 ar pm region := div_pos h hc
    rw [← hp, if_pos hpos, ha]
  · intro h
    have hnlt : ¬ 0 < region_area_km2 ar pm region := by
      rw [region_area_km2]
      intro hpos
      have h2 := (lt_div_iff₀ hc).mp hpos
      rw [zero_mul] at h2
      exact absurd h2 (not_lt.mpr h)
    rw [← hp, if_neg hnlt]

theorem pct_of_region_guard_witness :
    ((2030:ℤ), (0:ℝ)/1000000, (none : Option ℝ))
        ∈ summary_table (fun _ => false) (fun _ => (0:ℝ)) id [(2030, (∅:Geom))] ∅
    ∧ (none : Option ℝ) = none := by
  have hrow_eq : summary_table (fun _ => false) (fun _ => (0:ℝ)) id
      [(2030, (∅:Geom))] ∅
      = [((2030:ℤ), (0:ℝ)/1000000, (none : Option ℝ))] := by
    simp only [summary_table, summary_df, summary_rows, sort_by, sort_insert,
      summary_area, region_area_km2, List.map_cons, List.map_nil]
    norm_num
  have hm : ((2030:ℤ), (0:ℝ)/1000000, (none : Option ℝ))
      ∈ summary_table (fun _ => false) (fun _ => (0:ℝ)) id [(2030, (∅:Geom))] ∅ := by
    rw [hrow_eq]
    exact List.mem_singleton.mpr rfl
  exact ⟨hm,
    (pct_of_region_guard (fun _ => false) (fun _ => (0:ℝ)) id [(2030, (∅:Geom))] ∅
      2030 ((0:ℝ)/1000000) none hm).2 (le_refl 0)⟩

/-- C8: the presentation adapter is total and shape-directed: a missing or
empty geometry yields the empty path list, a non-empty polygon yields
exactly its own exterior path, and a non-empty multi-polygon yields one
exterior path per component polygon. -/
theorem geom_to_pydeck_polygons_total :
    geom_to_pydeck_polygons none = []
    ∧ (∀ g : SGeom, sg_is_empty g = true → geom_to_pydeck_polygons (some g) = [])
    ∧ (∀ e : List (ℝ × ℝ), sg_is_empty (SGeom.polygon e) = false →
        geom_to_pydeck_polygons (some (SGeom.polygon e)) = [exterior_path e])
    ∧ (∀ ps : List (List (ℝ × ℝ)), sg_is_empty (SGeom.multiPolygon ps) = false →
        geom_to_pydeck_polygons (some (SGeom.multiPolygon ps))
          = ps.map exterior_path) := by
  refine ⟨rfl, ?_, ?_, ?_⟩
  · intro g hg
    simp [geom_to_pydeck_polygons, hg]
  · intro e he
    simp [geom_to_pydeck_polygons, he, component_path]
  · intro ps hp
    simp only [geom_to_pydeck_polygons, hp]
    rw [if_neg (by simp [hp])]
    exact filterMap_polygon_map ps

theorem geom_to_pydeck_polygons_total_witness :
    geom_to_pydeck_polygons (some (SGeom.multiPolygon [[((0:ℝ), (0:ℝ))]]))
      = [[[(0:ℝ), (0:ℝ)]]] := by
  have h := geom_to_pydeck_polygons_total.2.2.2 [[((0:ℝ), (0:ℝ))]] rfl
  simpa [exterior_path] using h

/-- C9: the summary table is sorted ascending by year for every input, and
the heatmap comparison emits one row per region of the fixed enumeration per
simulated year, in enumeration order — the loop reads regions_to_compare
only, independent of the primary region selection. -/
theorem summary_sorted_and_fixed_regions (ie : Geom → Bool) (ar : Geom → ℝ)
    (pm pw : Transform) (w : WorldGdf) (years : List ℤ)
    (slr_map : List (ℤ × ℝ)) (coast : Geom) (c : ℝ)
    (inundations : List (ℤ × Geom)) (hnd : years.Nodup) :
    (summary_df ie ar pm inundations).Pairwise (fun a b => a.1 ≤ b.1)
    ∧ (heat_rows ie ar pm pw w years slr_map coast c).map (fun r => (r.1, r.2.1))
        = regions_to_compare.flatMap (fun reg => years.map (fun y => (reg, y))) := by
  constructor
  · have hp := sort_by_pairwise (fun a b : ℤ × ℝ => decide (a.1 ≤ b.1))
      (fun a b c hab hbc => by
        simp only [decide_eq_true_eq] at hab hbc ⊢
        exact le_trans hab hbc)
      (fun a b hab => by
        simp only [decide_eq_false_iff_not] at hab
        simp only [decide_eq_true_eq]
        exact le_of_not_le hab)
      (summary_rows ie ar pm inundations)
    exact hp.imp (fun h => of_decide_eq_true h)
  · unfold heat_rows
    rw [List.map_flatMap]
    have hF : ∀ reg : String,
        ((simulate_inundation_for_years pm pw years slr_map coast
            (get_region_geom w reg) c).map
          (fun yp => (reg, yp.1, summary_area ie ar pm yp.2))).map
            (fun r => (r.1, r.2.1))
        = years.map (fun y => (reg, y)) := by
      intro reg
      rw [List.map_map]
      have h1 : ((fun r : String × ℤ × ℝ => (r.1, r.2.1)) ∘
          (fun yp : ℤ × Geom => (reg, yp.1, summary_area ie ar pm yp.2)))
          = ((fun y : ℤ => (reg, y)) ∘ Prod.fst) := rfl
      rw [h1, ← List.map_map]
      have h2 : (simulate_inundation_for_years pm pw years slr_map coast
          (get_region_geom w reg) c).map Prod.fst = years :=
        simulate_dkeys pm pw years slr_map coast (get_region_geom w reg) c hnd
      rw [h2]
    simp only [hF]

theorem summary_sorted_and_fixed_regions_witness :
    (summary_df (fun _ => false) (fun _ => (0:ℝ)) id []).Pairwise
      (fun a b => a.1 ≤ b.1)
    ∧ (heat_rows (fun _ => false) (fun _ => (0:ℝ)) id id
          (WorldGdf.mk false false []) [2030] [] ∅ 1).map (fun r => (r.1, r.2.1))
        = regions_to_compare.flatMap (fun reg => [2030].map (fun y => (reg, y))) :=
  summary_sorted_and_fixed_regions (fun _ => false) (fun _ => (0:ℝ)) id id
    (WorldGdf.mk false false []) [2030] [] ∅ 1 [] (by simp)

end SeaLevelApp
